import Mathlib

/-!
Verification of the local cloudbuild translator
(`scripts/local_cloudbuild.py`): shell quoting, step validation,
command lowering and script assembly, with theorems settling the
specification's claims about them.
-/

/-! ## Shell quoting (Python `shlex.quote`) -/

/-- The single-quote character. -/
def squote : Char := Char.ofNat 39

/-- The double-quote character. -/
def dquote : Char := '"'

/-- The backslash character. -/
def bslash : Char := '\\'

/-- The dollar character, which starts a shell expansion. -/
def dollar : Char := '$'

/-- The backquote character, which starts a command substitution. -/
def backtick : Char := Char.ofNat 96

/-- Characters `shlex.quote` leaves unquoted: ASCII alphanumerics,
underscore, and the characters at-sign, percent, plus, equals, colon,
comma, dot, slash, hyphen — the complement of CPython's
`_find_unsafe` regex under `re.ASCII`. -/
def isSafeChar (c : Char) : Bool :=
  c.isAlphanum || c = '_' || c = '@' || c = '%' || c = '+' || c = '=' ||
  c = ':' || c = ',' || c = '.' || c = '/' || c = '-'

/-- Replace each single quote by the five characters of
`'"'"'`, exactly as `s.replace("'", "'\x22'\x22'")` does in
`shlex.quote` (the pattern is a single character, so Python's
`str.replace` rewrites precisely each occurrence). -/
def quoteReplace : List Char → List Char
  | [] => []
  | c :: cs =>
      if c = squote then
        squote :: dquote :: squote :: dquote :: squote :: quoteReplace cs
      else
        c :: quoteReplace cs

/-- CPython's `shlex.quote` on the character list of the string: the
empty string becomes two single quotes; a string of safe characters is
returned as is; anything else is wrapped in single quotes with inner
single quotes rewritten by `quoteReplace`. -/
def shlexQuoteList (s : List Char) : List Char :=
  if s.isEmpty then [squote, squote]
  else if s.all isSafeChar then s
  else squote :: (quoteReplace s ++ [squote])

/-- The shell-quoting function used by the translator: `shlex.quote`. -/
def shlexQuote (s : String) : String := String.mk (shlexQuoteList s.data)

/-! ## POSIX shell word reading (the spec's `unquote`)

A model of how a POSIX shell reads ONE word of a command line back
into a literal string: outside quotes a backslash escapes the next
character and an unescaped metacharacter (word separator, control
operator, globbing or expansion character) means the input is not one
plain literal word, so the reader fails; inside single quotes every
character is literal until the closing quote; inside double quotes a
backslash escapes only `$`, backquote, `"` and backslash, while an
unescaped `$` or backquote starts an expansion (not a literal word, so
the reader fails). Unterminated quotes or a trailing backslash fail. -/

/-- Shell metacharacters: whitespace, control operators, redirection,
globbing, comment and tilde characters, and the expansion starters. -/
def shellMetaChars : List Char :=
  [' ', '\t', '\n', '|', '&', ';', '(', ')', '<', '>', '*', '?', '[',
   '#', '~', dollar, backtick]

/-- Whether a character is a shell metacharacter. -/
def isShellMeta (c : Char) : Bool := decide (c ∈ shellMetaChars)

/-- Reading mode of the word reader: outside quotes, inside single
quotes, or inside double quotes. -/
inductive QMode where
  | norm
  | single
  | double
deriving DecidableEq

/-- The word reader: consume the quoted word and return the literal
string the shell would pass as one argument, or `none` when the input
is not a single plain literal word. -/
def unquoteAux : QMode → List Char → Option (List Char)
  | .norm, [] => some []
  | .norm, c :: cs =>
    if c = squote then unquoteAux .single cs
    else if c = dquote then unquoteAux .double cs
    else if c = bslash then
      match cs with
      | [] => none
      | d :: ds => (unquoteAux .norm ds).map (d :: ·)
    else if isShellMeta c then none
    else (unquoteAux .norm cs).map (c :: ·)
  | .single, [] => none
  | .single, c :: cs =>
    if c = squote then unquoteAux .norm cs
    else (unquoteAux .single cs).map (c :: ·)
  | .double, [] => none
  | .double, c :: cs =>
    if c = dquote then unquoteAux .norm cs
    else if c = bslash then
      match cs with
      | [] => none
      | d :: ds =>
        if d = dollar || d = backtick || d = dquote || d = bslash then
          (unquoteAux .double ds).map (d :: ·)
        else
          (unquoteAux .double ds).map (fun r => bslash :: d :: r)
    else if c = dollar || c = backtick then none
    else (unquoteAux .double cs).map (c :: ·)

/-- POSIX shell word reading of a whole string. -/
def posixUnquote (s : String) : Option String :=
  (unquoteAux .norm s.data).map String.mk

/-! ### Round-trip lemmas -/

theorem safe_ne_squote {c : Char} (h : isSafeChar c = true) : ¬(c = squote) := by
  intro e; subst e; exact absurd h (by decide)

theorem safe_ne_dquote {c : Char} (h : isSafeChar c = true) : ¬(c = dquote) := by
  intro e; subst e; exact absurd h (by decide)

theorem safe_ne_bslash {c : Char} (h : isSafeChar c = true) : ¬(c = bslash) := by
  intro e; subst e; exact absurd h (by decide)

theorem safe_not_meta {c : Char} (h : isSafeChar c = true) :
    isShellMeta c = false := by
  cases hm : isShellMeta c
  · rfl
  · exfalso
    have hmem : c ∈ shellMetaChars := of_decide_eq_true hm
    fin_cases hmem <;> exact absurd h (by decide)

theorem unq_norm_cons_safe (c : Char) (cs : List Char) (h : isSafeChar c = true) :
    unquoteAux .norm (c :: cs) = (unquoteAux .norm cs).map (c :: ·) := by
  rw [unquoteAux.eq_def]
  simp [safe_ne_squote h, safe_ne_dquote h, safe_ne_bslash h, safe_not_meta h]

theorem unq_norm_safe_list (s : List Char) (h : s.all isSafeChar = true) :
    unquoteAux .norm s = some s := by
  induction s with
  | nil => rfl
  | cons c cs ih =>
    rw [List.all_cons, Bool.and_eq_true] at h
    rw [unq_norm_cons_safe c cs h.1, ih h.2]
    rfl

theorem unq_single_sq (t : List Char) :
    unquoteAux .single (squote :: t) = unquoteAux .norm t := by
  rw [unquoteAux.eq_def]
  simp

theorem unq_single_other (c : Char) (t : List Char) (h : ¬(c = squote)) :
    unquoteAux .single (c :: t) = (unquoteAux .single t).map (c :: ·) := by
  rw [unquoteAux.eq_def]
  simp [h]

theorem unq_norm_sq (t : List Char) :
    unquoteAux .norm (squote :: t) = unquoteAux .single t := by
  rw [unquoteAux.eq_def]
  simp

theorem unq_norm_dq (t : List Char) :
    unquoteAux .norm (dquote :: t) = unquoteAux .double t := by
  rw [unquoteAux.eq_def]
  simp [(by decide : ¬(dquote = squote))]

theorem unq_double_sq (t : List Char) :
    unquoteAux .double (squote :: t) = (unquoteAux .double t).map (squote :: ·) := by
  rw [unquoteAux.eq_def]
  simp [(by decide : ¬(squote = dquote)), (by decide : ¬(squote = bslash)),
        (by decide : ¬(squote = dollar)), (by decide : ¬(squote = backtick))]

theorem unq_double_dq (t : List Char) :
    unquoteAux .double (dquote :: t) = unquoteAux .norm t := by
  rw [unquoteAux.eq_def]
  simp

theorem unq_single_quoteReplace (s : List Char) :
    unquoteAux .single (quoteReplace s ++ [squote]) = some s := by
  induction s with
  | nil =>
    rw [quoteReplace, List.nil_append, unq_single_sq]
    rfl
  | cons c cs ih =>
    by_cases hc : c = squote
    · subst hc
      rw [quoteReplace, if_pos rfl]
      rw [List.cons_append, unq_single_sq]
      rw [List.cons_append, unq_norm_dq]
      rw [List.cons_append, unq_double_sq]
      rw [List.cons_append, unq_double_dq]
      rw [List.cons_append, unq_norm_sq]
      rw [ih]
      rfl
    · rw [quoteReplace, if_neg hc]
      rw [List.cons_append, unq_single_other c _ hc, ih]
      rfl

theorem shlex_roundtrip_list (l : List Char) :
    unquoteAux .norm (shlexQuoteList l) = some l := by
  rw [shlexQuoteList]
  by_cases he : l.isEmpty
  · rw [if_pos he]
    rw [List.isEmpty_iff] at he
    subst he
    rfl
  · rw [if_neg he]
    by_cases hs : l.all isSafeChar
    · rw [if_pos hs]
      exact unq_norm_safe_list l hs
    · rw [if_neg hs]
      rw [unq_norm_sq, unq_single_quoteReplace]

/-- C1: the shell-quoting function used for every user-supplied token
satisfies the round trip `unquote(quote(s)) = s` for every string `s`,
where `unquote` is POSIX shell word reading (which fails on any
unescaped shell metacharacter, so success also certifies that
`quote(s)` contains none); consequently
`quote(unquote(quote(s))) = quote(s)` for every token. -/
theorem quote_unquote_roundtrip : ∀ s : String,
    posixUnquote (shlexQuote s) = some s ∧
    (posixUnquote (shlexQuote s)).map shlexQuote = some (shlexQuote s) := by
  intro s
  have h1 : posixUnquote (shlexQuote s) = some s := by
    show (unquoteAux .norm (shlexQuoteList s.data)).map String.mk = some s
    rw [shlex_roundtrip_list]
    rfl
  exact ⟨h1, by rw [h1]; rfl⟩

/-! ## Step model and command lowering -/

/-- Validated build step: namedtuple `Step('args dir_ env name')`. -/
structure Step where
  args : List String
  dir_ : String
  env : List String
  name : String
deriving DecidableEq

/-- Validated cloudbuild recipe plus flags: namedtuple
`CloudBuild('output_script run steps')`. -/
structure CloudBuild where
  output_script : String
  run : Bool
  steps : List Step
deriving DecidableEq

/-- Whether a string starts with the path separator, as
`b.startswith(sep)` tests inside `posixpath.join`. -/
def startsWithSlash (s : String) : Bool :=
  match s.data with
  | [] => false
  | c :: _ => c = '/'

/-- Whether a string ends with the path separator, as
`path.endswith(sep)` tests inside `posixpath.join`. -/
def endsWithSlash (s : String) : Bool :=
  match s.data.getLast? with
  | some c => c = '/'
  | none => false

/-- Python `os.path.join(a, b)` on POSIX: if `b` is absolute it
replaces `a`; otherwise `b` is appended, inserting the separator
unless `a` is empty or already ends with it. -/
def posixJoin (a b : String) : String :=
  if startsWithSlash b then b
  else if a = "" || endsWithSlash a then a ++ b
  else a ++ "/" ++ b

/-- Translation of `generate_command`: quote the args, lower each env
entry to a `--env` pair, quote the image name, compute the working
directory, and concatenate with the fixed `docker run` prefix. -/
def generate_command (step : Step) : List String :=
  let quoted_args := step.args.map shlexQuote
  let quoted_env := step.env.foldl
    (fun acc env => acc ++ ["--env", shlexQuote env]) []
  let quoted_name := shlexQuote step.name
  let workdir :=
    if step.dir_ = "" then "/workspace"
    else posixJoin "/workspace" (shlexQuote step.dir_)
  ["docker",
   "run",
   "--volume",
   "/var/run/docker.sock:/var/run/docker.sock",
   "--volume",
   "/root/.docker:/root/.docker",
   "--volume",
   "$\x7bHOST_WORKSPACE\x7d:/workspace",
   "--workdir",
   workdir] ++ quoted_env ++ [quoted_name] ++ quoted_args

theorem env_foldl_eq (f : String → String) (l : List String) (init : List String) :
    l.foldl (fun acc e => acc ++ ["--env", f e]) init
      = init ++ l.flatMap (fun e => ["--env", f e]) := by
  induction l generalizing init with
  | nil => simp
  | cons x xs ih => simp [ih]

/-- Structural form of `generate_command`: the fixed prefix, then the
env pairs in order, then the quoted name, then the quoted args. -/
theorem generate_command_eq (step : Step) :
    generate_command step =
      ["docker", "run", "--volume", "/var/run/docker.sock:/var/run/docker.sock",
       "--volume", "/root/.docker:/root/.docker", "--volume",
       "$\x7bHOST_WORKSPACE\x7d:/workspace", "--workdir",
       if step.dir_ = "" then "/workspace"
       else posixJoin "/workspace" (shlexQuote step.dir_)]
      ++ step.env.flatMap (fun e => ["--env", shlexQuote e])
      ++ [shlexQuote step.name]
      ++ step.args.map shlexQuote := by
  rw [generate_command, env_foldl_eq]
  simp

/-! ## Script assembly -/

/-- The fixed script header `BUILD_SCRIPT_HEADER`. -/
def BUILD_SCRIPT_HEADER : String :=
  "#!/bin/bash\n# This is a generated file.  Do not edit.\n\nset -euo pipefail\n\nSOURCE_DIR=.\n\n# Setup staging directory\nHOST_WORKSPACE=$(mktemp -d)\nfunction cleanup \x7b\n    if [ \"$\x7bHOST_WORKSPACE\x7d\" != \x27/\x27 -a -d \"$\x7bHOST_WORKSPACE\x7d\" ]; then\n        rm -rf \"$\x7bHOST_WORKSPACE\x7d\"\n    fi\n\x7d\ntrap cleanup EXIT\n\n# Copy source to staging directory\necho \"Copying source to staging directory $\x7bHOST_WORKSPACE\x7d\"\nrsync -avzq --exclude=.git \"$\x7bSOURCE_DIR\x7d\" \"$\x7bHOST_WORKSPACE\x7d\"\n\n# Build commands\n"

/-- The fixed script footer `BUILD_SCRIPT_FOOTER`. -/
def BUILD_SCRIPT_FOOTER : String :=
  "# End of build commands\n\necho \"Build completed successfully\"\n"

/-- Translation of `generate_script`: write the header, then for each
step the space-joined command followed by a blank line, then the
footer (the `StringIO` accumulation is the fold). -/
def generate_script (cloudbuild : CloudBuild) : String :=
  let docker_commands := cloudbuild.steps.map generate_command
  let body := docker_commands.foldl
    (fun acc docker_command =>
      acc ++ (String.intercalate " " docker_command ++ "\n\n"))
    BUILD_SCRIPT_HEADER
  body ++ BUILD_SCRIPT_FOOTER

theorem str_append_nil (s : String) : s ++ "" = s := by
  apply String.ext
  show s.data ++ [] = s.data
  exact List.append_nil s.data

theorem str_foldl_join (l : List String) (s : String) :
    l.foldl (fun r t => r ++ t) s = s ++ String.join l := by
  induction l generalizing s with
  | nil => exact (str_append_nil s).symm
  | cons a as ih =>
    rw [List.foldl_cons, ih]
    rw [show String.join (a :: as) = (a :: as).foldl (fun r t => r ++ t) "" from rfl]
    rw [List.foldl_cons]
    rw [show ("" ++ a) = a from rfl]
    rw [ih a, String.append_assoc]

theorem foldl_write (f : α → String) (l : List α) (init : String) :
    l.foldl (fun acc x => acc ++ f x) init = init ++ String.join (l.map f) := by
  induction l generalizing init with
  | nil => exact (str_append_nil init).symm
  | cons x xs ih =>
    rw [List.foldl_cons, ih, List.map_cons]
    rw [show String.join (f x :: xs.map f)
          = (f x :: xs.map f).foldl (fun r t => r ++ t) "" from rfl]
    rw [List.foldl_cons]
    rw [show ("" ++ f x) = f x from rfl]
    rw [str_foldl_join, String.append_assoc]

/-! ## Lemmas about the lowered command -/

theorem flatMap_env_length (f : String → String) (l : List String) :
    (l.flatMap (fun e => ["--env", f e])).length = 2 * l.length := by
  induction l with
  | nil => rfl
  | cons x xs ih =>
    simp [List.flatMap_cons, ih]
    omega

theorem shlexQuote_of_safe (s : String) (h1 : ¬(s = ""))
    (h2 : s.data.all isSafeChar = true) : shlexQuote s = s := by
  have hne : s.data ≠ [] := by
    intro e
    apply h1
    obtain ⟨d⟩ := s
    exact congrArg String.mk e
  show String.mk (shlexQuoteList s.data) = s
  rw [shlexQuoteList]
  rw [if_neg (fun he => hne (List.isEmpty_iff.mp he)), if_pos h2]

/-- C6: for every validated Step the lowered command is exactly the
fixed docker-run prefix with the three volume mounts and the
`--workdir` flag, then one `--env VALUE` pair per env entry in document
order with the value individually quoted, then the quoted image name
once, then each args element individually quoted, in order. -/
theorem command_token_order (step : Step) :
    generate_command step =
      ["docker", "run", "--volume", "/var/run/docker.sock:/var/run/docker.sock",
       "--volume", "/root/.docker:/root/.docker", "--volume",
       "$\x7bHOST_WORKSPACE\x7d:/workspace", "--workdir",
       if step.dir_ = "" then "/workspace"
       else posixJoin "/workspace" (shlexQuote step.dir_)]
      ++ step.env.flatMap (fun e => ["--env", shlexQuote e])
      ++ [shlexQuote step.name]
      ++ step.args.map shlexQuote :=
  generate_command_eq step

/-- C9: command lowering is a pure total function; on every
structurally valid Step it returns a token list, whose length is
exactly the fixed prefix plus two tokens per env entry, one name token
and one token per argument. -/
theorem lowering_total_token_count (step : Step) :
    (generate_command step).length = 11 + 2 * step.env.length + step.args.length := by
  rw [generate_command_eq]
  simp [flatMap_env_length shlexQuote step.env]
  omega

/-- C3: with empty dir the `--workdir` flag's value is exactly
`/workspace`; with non-empty dir it is `/workspace` path-joined with
the quoted dir; in particular dir `dir/ with space/` yields the
workdir value `/workspace/\x27dir/ with space/\x27`. -/
theorem workdir_flag_value (step : Step) :
    (step.dir_ = "" →
      List.get? (generate_command step) 8 = some "--workdir" ∧
      List.get? (generate_command step) 9 = some "/workspace") ∧
    (¬(step.dir_ = "") →
      List.get? (generate_command step) 9
        = some (posixJoin "/workspace" (shlexQuote step.dir_))) ∧
    (step.dir_ = "dir/ with space/" →
      List.get? (generate_command step) 9 = some "/workspace/\x27dir/ with space/\x27") := by
  refine ⟨fun h => ?_, fun h => ?_, fun h => ?_⟩
  · rw [generate_command_eq, if_pos h]
    exact ⟨rfl, rfl⟩
  · rw [generate_command_eq, if_neg h]
    rfl
  · rw [generate_command_eq, h, if_neg (by decide : ¬("dir/ with space/" = ""))]
    rfl

/-- Witness for C3 at the empty dir and at `dir/ with space/`. -/
theorem workdir_flag_value_witness :
    List.get? (generate_command { args := [], dir_ := "", env := [], name := "" }) 9
      = some "/workspace" ∧
    List.get?
      (generate_command
        { args := [], dir_ := "dir/ with space/", env := [], name := "" }) 9
      = some "/workspace/\x27dir/ with space/\x27" :=
  ⟨((workdir_flag_value { args := [], dir_ := "", env := [], name := "" }).1 rfl).2,
   (workdir_flag_value
      { args := [], dir_ := "dir/ with space/", env := [], name := "" }).2.2 rfl⟩

/-! ## The per-segment quoting sentence (C2) -/

/-- Split a character list at every slash, as the path segments of a
path string. -/
def splitSegments : List Char → List (List Char)
  | [] => [[]]
  | c :: cs =>
    if c = '/' then [] :: splitSegments cs
    else
      match splitSegments cs with
      | [] => [[c]]
      | s :: rest => (c :: s) :: rest

/-- Modelled from the spec: the working-directory value as the spec's
sentence describes it — "each path segment independently shell-quoted,
then joined with the path separator" — appended under the fixed
workspace root. The source has no such per-segment computation; this
definition exists only to compare the sentence with the code. -/
def workdirPerSegmentSpec (dir : String) : String :=
  posixJoin "/workspace"
    (String.intercalate "/"
      ((splitSegments dir.data).map (fun seg => String.mk (shlexQuoteList seg))))

/-- C2 counterexample: for dir `a b/c d` the code quotes the whole dir
as one segment, producing one quoted blob that contains the separator,
while per-segment quoting would quote the two segments separately; the
two values differ. -/
theorem workdir_per_segment_refuted :
    List.get? (generate_command { args := [], dir_ := "a b/c d", env := [], name := "" }) 9
      = some "/workspace/\x27a b/c d\x27" ∧
    workdirPerSegmentSpec "a b/c d" = "/workspace/\x27a b\x27/\x27c d\x27" ∧
    ¬("/workspace/\x27a b/c d\x27" = "/workspace/\x27a b\x27/\x27c d\x27") :=
  ⟨rfl, rfl, by decide⟩

/-- C2 (amended): the working-directory flag's value is built by
shell-quoting the step's dir as a single segment — not per path
segment — and joining the one quoted value under the fixed workspace
root with the path join. -/
theorem workdir_quotes_dir_as_whole (step : Step) (h : ¬(step.dir_ = "")) :
    List.get? (generate_command step) 9
      = some (posixJoin "/workspace" (shlexQuote step.dir_)) := by
  rw [generate_command_eq, if_neg h]
  rfl

/-- Witness for the amended C2 at dir `a b/c d`. -/
theorem workdir_quotes_dir_as_whole_witness :
    List.get? (generate_command { args := [], dir_ := "a b/c d", env := [], name := "" }) 9
      = some (posixJoin "/workspace" (shlexQuote "a b/c d")) :=
  workdir_quotes_dir_as_whole
    { args := [], dir_ := "a b/c d", env := [], name := "" } (by decide)

/-- C10: when dir is non-empty, begins with the separator and consists
only of characters the quoting function leaves unquoted, the quoted
dir equals dir, the path join discards the workspace root, and the
emitted workdir value is the dir alone. -/
theorem absolute_safe_dir_escapes_workspace (step : Step)
    (h1 : ¬(step.dir_ = "")) (h2 : startsWithSlash step.dir_ = true)
    (h3 : step.dir_.data.all isSafeChar = true) :
    shlexQuote step.dir_ = step.dir_ ∧
    List.get? (generate_command step) 9 = some step.dir_ := by
  have hq := shlexQuote_of_safe step.dir_ h1 h3
  have hj : posixJoin "/workspace" step.dir_ = step.dir_ := by
    unfold posixJoin
    rw [if_pos h2]
  refine ⟨hq, ?_⟩
  rw [generate_command_eq, if_neg h1, hq, hj]
  rfl

/-- Witness for C10 at dir `/etc`. -/
theorem absolute_safe_dir_escapes_workspace_witness :
    shlexQuote "/etc" = "/etc" ∧
    List.get? (generate_command { args := [], dir_ := "/etc", env := [], name := "" }) 9
      = some "/etc" :=
  absolute_safe_dir_escapes_workspace
    { args := [], dir_ := "/etc", env := [], name := "" }
    (by decide) (by decide) (by decide)

/-! ## Script assembly claims -/

/-- C7: the script is exactly the fixed header, then for each step in
recipe order the space-joined lowered command followed by a blank
line, then the fixed footer. -/
theorem script_text_structure (cloudbuild : CloudBuild) :
    generate_script cloudbuild =
      BUILD_SCRIPT_HEADER ++
      String.join (cloudbuild.steps.map
        (fun step => String.intercalate " " (generate_command step) ++ "\n\n")) ++
      BUILD_SCRIPT_FOOTER := by
  show ((cloudbuild.steps.map generate_command).foldl
      (fun acc docker_command =>
        acc ++ (String.intercalate " " docker_command ++ "\n\n"))
      BUILD_SCRIPT_HEADER) ++ BUILD_SCRIPT_FOOTER = _
  rw [foldl_write (fun docker_command =>
        String.intercalate " " docker_command ++ "\n\n")
      (cloudbuild.steps.map generate_command) BUILD_SCRIPT_HEADER]
  rw [List.map_map]
  rfl

/-- C8: script assembly is deterministic — it is a pure function of
the recipe's steps, so equal step lists give byte-identical text. -/
theorem script_assembly_deterministic (r₁ r₂ : CloudBuild)
    (h : r₁.steps = r₂.steps) :
    generate_script r₁ = generate_script r₂ := by
  unfold generate_script
  rw [h]

/-- Witness for C8: two recipes with the same steps but different
flags assemble to identical text. -/
theorem script_assembly_deterministic_witness :
    generate_script { output_script := "a.sh", run := false, steps := [] }
      = generate_script { output_script := "b.sh", run := true, steps := [] } :=
  script_assembly_deterministic
    { output_script := "a.sh", run := false, steps := [] }
    { output_script := "b.sh", run := true, steps := [] } rfl

/-! ## Schema validation

The validator of `local_cloudbuild.py` extracts fields through
`validation_utils.get_field_value`, imported from a module whose
source is not in the tree; those extraction primitives are modelled
from the spec below, and marked as such. -/

/-- A decoded configuration value: nested mappings, sequences, strings
and integer scalars (the non-string scalar the spec and tests
exercise; floating point is out of scope of the embedding). -/
inductive YVal where
  | str (s : String)
  | int (n : Int)
  | list (xs : List YVal)
  | map (entries : List (String × YVal))

/-- Python type name of a decoded value. -/
def YVal.typeName : YVal → String
  | .str _ => "str"
  | .int _ => "int"
  | .list _ => "list"
  | .map _ => "dict"

/-- Key lookup in a decoded mapping (Python dict indexing; decoded
mappings have unique keys). -/
def ylookup (entries : List (String × YVal)) (key : String) : Option YVal :=
  match entries with
  | [] => none
  | (k, v) :: rest => if k = key then some v else ylookup rest key

/-- The expected-versus-found text of a field type mismatch. -/
def typeMismatch (field expected found : String) : String :=
  "Expected " ++ field ++ " to be of type \"" ++ expected ++
  "\", but found type \"" ++ found ++ "\""

/-- Modelled from the spec: `validation_utils.get_field_value(container,
field_name, str)` on a mapping container — the module's source is not in
the tree. Per the spec's field-extraction contract: an absent field
returns the type's empty value; a non-string scalar is coerced to its
string form; a present structured value is a validation error. -/
def get_field_value_str (container : List (String × YVal)) (field : String) :
    Except String String :=
  match ylookup container field with
  | none => .ok ""
  | some (.str s) => .ok s
  | some (.int n) => .ok (toString n)
  | some v => .error (typeMismatch field "str" v.typeName)

/-- Modelled from the spec: `validation_utils.get_field_value(container,
field_name, list)` on a mapping container — an absent field returns the
empty sequence; a present non-sequence value is a validation error. -/
def get_field_value_list (container : List (String × YVal)) (field : String) :
    Except String (List YVal) :=
  match ylookup container field with
  | none => .ok []
  | some (.list xs) => .ok xs
  | some v => .error (typeMismatch field "list" v.typeName)

/-- Modelled from the spec: `validation_utils.get_field_value(sequence,
index, str)` as applied to each element of `args` and `env` (the index
ranges over the sequence, so the element is always present) — strings
pass through, integer scalars are coerced to their string form, and
structured elements are rejected. -/
def get_element_str (v : YVal) : Except String String :=
  match v with
  | .str s => .ok s
  | .int n => .ok (toString n)
  | other => .error (typeMismatch "element" "str" other.typeName)

/-- Whether a validation result is an error. -/
def isErr {α : Type} (e : Except String α) : Bool :=
  match e with
  | .error _ => true
  | .ok _ => false

/-- Translation of `get_step`: the raw step must be a mapping; `args`
and `env` are extracted as sequences whose elements are extracted as
strings, `dir` and `name` as strings; the validated fields form the
Step, in the source's evaluation order. -/
def get_step (raw_step : YVal) : Except String Step :=
  match raw_step with
  | .map m => do
    let raw_args ← get_field_value_list m "args"
    let args ← raw_args.mapM get_element_str
    let dir_ ← get_field_value_str m "dir"
    let raw_env ← get_field_value_list m "env"
    let env ← raw_env.mapM get_element_str
    let name ← get_field_value_str m "name"
    return { args := args, dir_ := dir_, env := env, name := name }
  | v =>
    .error ("Expected step to be of type \"dict\", but found type \"" ++
      v.typeName ++ "\"")

/-- Translation of `get_cloudbuild`: the document must be a mapping;
`steps` is extracted as a sequence, an empty (or, via the default,
absent) sequence raises `No steps defined`, and each raw step is
validated by `get_step`; the flags are passed through. -/
def get_cloudbuild (raw_config : YVal) (config : String)
    (output_script : String) (run : Bool) : Except String CloudBuild :=
  match raw_config with
  | .map m => do
    let raw_steps ← get_field_value_list m "steps"
    if raw_steps.isEmpty then
      .error ("No steps defined in " ++ config)
    else do
      let steps ← raw_steps.mapM get_step
      return { output_script := output_script, run := run, steps := steps }
  | v =>
    .error ("Expected " ++ config ++ " contents to be of type \"dict\", " ++
      "but found type \"" ++ v.typeName ++ "\"")

/-- C4 counterexample: a document with no `steps` field and a document
whose `steps` is the empty sequence fail with the SAME message — the
absent field defaults to the empty sequence before the emptiness test —
so the three failure cases do not carry three pairwise distinct
messages. -/
theorem steps_missing_empty_same_error :
    get_cloudbuild (.map [("foo", .str "bar")]) "cloudbuild.yaml" "out.sh" false
      = .error "No steps defined in cloudbuild.yaml" ∧
    get_cloudbuild (.map [("steps", .list [])]) "cloudbuild.yaml" "out.sh" false
      = .error "No steps defined in cloudbuild.yaml" :=
  ⟨rfl, rfl⟩

/-- C4 (amended): validation fails whenever `steps` is absent, present
with a non-sequence value, or an empty sequence; the wrong-type case
carries a distinct type-mismatch message, while absence and emptiness
carry the same `No steps defined` message. -/
theorem steps_validation (m : List (String × YVal)) (config out : String)
    (run : Bool) :
    (ylookup m "steps" = none →
      get_cloudbuild (.map m) config out run
        = .error ("No steps defined in " ++ config)) ∧
    (ylookup m "steps" = some (.list []) →
      get_cloudbuild (.map m) config out run
        = .error ("No steps defined in " ++ config)) ∧
    (∀ s, ylookup m "steps" = some (.str s) →
      get_cloudbuild (.map m) config out run
        = .error (typeMismatch "steps" "list" "str")) ∧
    (∀ n, ylookup m "steps" = some (.int n) →
      get_cloudbuild (.map m) config out run
        = .error (typeMismatch "steps" "list" "int")) ∧
    (∀ entries, ylookup m "steps" = some (.map entries) →
      get_cloudbuild (.map m) config out run
        = .error (typeMismatch "steps" "list" "dict")) := by
  refine ⟨fun h => ?_, fun h => ?_, fun s h => ?_, fun n h => ?_,
          fun entries h => ?_⟩ <;>
    (simp only [get_cloudbuild]
     unfold get_field_value_list
     rw [h]
     rfl)

/-- Witness for the amended C4: a document without `steps` and one with
`steps: astring` both fail, with the two different messages. -/
theorem steps_validation_witness :
    get_cloudbuild (.map [("foo", .str "bar")]) "cloudbuild.yaml" "o.sh" true
      = .error "No steps defined in cloudbuild.yaml" ∧
    get_cloudbuild (.map [("steps", .str "astring")]) "cloudbuild.yaml" "o.sh" true
      = .error (typeMismatch "steps" "list" "str") :=
  ⟨(steps_validation [("foo", .str "bar")] "cloudbuild.yaml" "o.sh" true).1 rfl,
   (steps_validation [("steps", .str "astring")] "cloudbuild.yaml" "o.sh"
      true).2.2.1 "astring" rfl⟩

/-- C5: each of `name`, `args`, `dir`, `env` defaults to its empty
value when absent (so the empty step validates to the all-empty Step);
a field present with the wrong type is a validation error; within
`args` and `env`, integer scalar elements are coerced to their string
form while list and mapping elements are rejected — including on the
full and invalid step documents of the test suite. -/
theorem step_field_validation :
    (∀ m f, ylookup m f = none →
      get_field_value_str m f = .ok "" ∧ get_field_value_list m f = .ok []) ∧
    (get_step (.map []) = .ok { args := [], dir_ := "", env := [], name := "" }) ∧
    (∀ n : Int, get_element_str (.int n) = .ok (toString n)) ∧
    (∀ xs, isErr (get_element_str (.list xs)) = true) ∧
    (∀ entries, isErr (get_element_str (.map entries)) = true) ∧
    (∀ m f xs, ylookup m f = some (.list xs) →
      isErr (get_field_value_str m f) = true) ∧
    (∀ m f entries, ylookup m f = some (.map entries) →
      isErr (get_field_value_str m f) = true) ∧
    (∀ m f s, ylookup m f = some (.str s) →
      isErr (get_field_value_list m f) = true) ∧
    (∀ m f n, ylookup m f = some (.int n) →
      isErr (get_field_value_list m f) = true) ∧
    (get_step (.map
        [("name", .str "aname"),
         ("args", .list [.str "arg1", .int 2, .str "arg3 with \n newline"]),
         ("env", .list [.str "ENV1=value1", .str "ENV2=space in value2"]),
         ("dir", .str "adir")])
      = .ok { args := ["arg1", "2", "arg3 with \n newline"], dir_ := "adir",
              env := ["ENV1=value1", "ENV2=space in value2"],
              name := "aname" }) ∧
    (isErr (get_step (.list [])) = true) ∧
    (isErr (get_step (.map [("args", .str "not_a_list")])) = true) ∧
    (isErr (get_step (.map [("args", .list [.list []])])) = true) ∧
    (isErr (get_step (.map [("env", .str "not_a_list")])) = true) ∧
    (isErr (get_step (.map [("env", .list [.map []])])) = true) ∧
    (isErr (get_step (.map [("dir", .map [])])) = true) ∧
    (isErr (get_step (.map [("name", .list [])])) = true) := by
  refine ⟨fun m f h => ⟨?_, ?_⟩, rfl, fun n => rfl, fun xs => rfl,
          fun entries => rfl, fun m f xs h => ?_, fun m f entries h => ?_,
          fun m f s h => ?_, fun m f n h => ?_,
          rfl, rfl, rfl, rfl, rfl, rfl, rfl, rfl⟩ <;>
    (first
      | (unfold get_field_value_str; rw [h]; try rfl)
      | (unfold get_field_value_list; rw [h]; try rfl))

/-- Witness for C5: absent fields of a concrete mapping default to the
empty string and the empty sequence. -/
theorem step_field_validation_witness :
    get_field_value_str [("x", YVal.int 1)] "dir" = .ok "" ∧
    get_field_value_list [("x", YVal.int 1)] "args" = .ok [] :=
  ⟨(step_field_validation.1 [("x", YVal.int 1)] "dir" rfl).1,
   (step_field_validation.1 [("x", YVal.int 1)] "args" rfl).2⟩
